import Mathlib

/-!
Shallow embedding of epistasis/stats.py, the statistics helpers of the
epistasis repository.  Numeric values are modelled as rationals and numpy
arrays as lists of rationals.  Python exceptions (the explicit shape check,
IndexError on an out-of-range access, ZeroDivisionError on a scalar division
by zero, NameError on an unbound name) are modelled with an Except monad.
Divisions that numpy silently turns into inf or nan are modelled by total
field division where the surrounding formula is the object of interest
(F_test), and by a checked divisor where the failure itself is the specified
behaviour (pearson, generalized_r2).  The square root and the F-distribution
cdf come from numpy and scipy; they are taken as function parameters.
-/

namespace Stats

/-- Python exception outcomes observable from the stats functions. -/
inductive PyErr : Type where
  | exception (msg : String)
  | nameError (nm : String)
  | indexError
  | zeroDivision
  deriving DecidableEq

/-- The external model collaborator of stats.py: it exposes the observed
phenotypes, the list returned by predict, the parameter list
Interactions.values and the observation count n. -/
structure Model : Type where
  phenotypes : List ℚ
  predictions : List ℚ
  interactionValues : List ℚ
  n : ℕ

/-- np.mean of a vector: sum divided by length. -/
def mean (y : List ℚ) : ℚ := y.sum / (y.length : ℚ)

/-- Sum of squared deviations from the mean, the expression
sum of (v - mean) squared that stats.py writes for xdenom, ydenom and
ss_total. -/
def ssDev (y : List ℚ) : ℚ := (y.map (fun v => (v - mean y) ^ 2)).sum

/-- ss_residuals from stats.py: the sum of squared differences between the
observed and predicted vectors. -/
def ss_residuals (y_obs y_pred : List ℚ) : ℚ :=
  (List.zipWith (fun a b => (a - b) ^ 2) y_obs y_pred).sum

/-- pearson from stats.py.  The terms loop runs over range of len of y_obs
and reads y_pred at every such index, so a y_pred shorter than y_obs makes
Python raise IndexError inside the loop, before any denominator is formed;
otherwise the summed loop is the numerator and the denominator multiplies
the square roots of the two sums of squared deviations.  The square root
(np.sqrt) is a parameter.  A zero denominator, which numpy would turn into a
nan result, is reported as a zeroDivision error. -/
def pearson (sqrt : ℚ → ℚ) (y_obs y_pred : List ℚ) : Except PyErr ℚ :=
  let xbar := mean y_obs
  let ybar := mean y_pred
  if y_pred.length < y_obs.length then Except.error PyErr.indexError
  else
    let numerator :=
      ((List.range y_obs.length).map
        (fun i => (y_obs.getD i 0 - xbar) * (y_pred.getD i 0 - ybar))).sum
    let denominator := sqrt (ssDev y_obs) * sqrt (ssDev y_pred)
    if denominator = 0 then Except.error PyErr.zeroDivision
    else Except.ok (numerator / denominator)

/-- generalized_r2 from stats.py: one minus the ratio of the residual sum of
squares to the total sum of squares.  A zero total sum of squares, which
numpy would turn into a nan result, is reported as a zeroDivision error. -/
def generalized_r2 (y_obs y_pred : List ℚ) : Except PyErr ℚ :=
  let ss_total := ssDev y_obs
  let ss_res := ss_residuals y_obs y_pred
  if ss_total = 0 then Except.error PyErr.zeroDivision
  else Except.ok (1 - ss_res / ss_total)

/-- The loop of false_positive_rate over the index list, carrying the pair
(known_zeros, false_positives).  At an index whose observation is exactly
zero the loop reads lower_bounds at that index, which in Python raises
IndexError when the index is out of range; ub and lb are the already scaled
bound vectors. -/
def fprGo (yo yp ub lb : List ℚ) : List ℕ → ℕ × ℕ → Except PyErr (ℕ × ℕ)
  | [], acc => Except.ok acc
  | i :: rest, acc =>
    if yo.getD i 0 = 0 then
      if i < lb.length then
        fprGo yo yp ub lb rest
          (acc.1 + 1,
           if yo.getD i 0 > yp.getD i 0 + ub.getD i 0 ∨
              yo.getD i 0 < yp.getD i 0 - lb.getD i 0 then acc.2 + 1 else acc.2)
      else Except.error PyErr.indexError
    else fprGo yo yp ub lb rest acc

/-- false_positive_rate from stats.py.  The explicit size check compares
y_obs with y_pred and upper_ci only; the bounds are scaled by sigmas before
the loop; the final scalar division raises ZeroDivisionError when no
observation was zero. -/
def false_positive_rate (y_obs y_pred upper_ci lower_ci : List ℚ)
    (sigmas : ℚ) : Except PyErr ℚ :=
  if y_obs.length ≠ y_pred.length ∨ y_obs.length ≠ upper_ci.length then
    Except.error (PyErr.exception ("Input arrays must all be the same size"))
  else
    match fprGo y_obs y_pred (upper_ci.map (fun v => sigmas * v))
        (lower_ci.map (fun v => sigmas * v)) (List.range y_obs.length) (0, 0) with
    | Except.error e => Except.error e
    | Except.ok kzfp =>
      if kzfp.1 = 0 then Except.error PyErr.zeroDivision
      else Except.ok ((kzfp.2 : ℚ) / (kzfp.1 : ℚ))

/-- The loop of false_negative_rate over the index list, carrying the pair
(known_nonzeros, false_negatives).  At an index whose observation is nonzero
the loop reads lower_bounds at that index, which in Python raises IndexError
when the index is out of range; the counting test is the strict chain
lower < 0 < upper. -/
def fnrGo (yo yp ub lb : List ℚ) : List ℕ → ℕ × ℕ → Except PyErr (ℕ × ℕ)
  | [], acc => Except.ok acc
  | i :: rest, acc =>
    if yo.getD i 0 ≠ 0 then
      if i < lb.length then
        fnrGo yo yp ub lb rest
          (acc.1 + 1,
           if yp.getD i 0 - lb.getD i 0 < 0 ∧ 0 < yp.getD i 0 + ub.getD i 0
           then acc.2 + 1 else acc.2)
      else Except.error PyErr.indexError
    else fnrGo yo yp ub lb rest acc

/-- false_negative_rate from stats.py.  Same shape check and scaling as
false_positive_rate; the final scalar division raises ZeroDivisionError when
every observation was zero. -/
def false_negative_rate (y_obs y_pred upper_ci lower_ci : List ℚ)
    (sigmas : ℚ) : Except PyErr ℚ :=
  if y_obs.length ≠ y_pred.length ∨ y_obs.length ≠ upper_ci.length then
    Except.error (PyErr.exception ("Input arrays must all be the same size"))
  else
    match fnrGo y_obs y_pred (upper_ci.map (fun v => sigmas * v))
        (lower_ci.map (fun v => sigmas * v)) (List.range y_obs.length) (0, 0) with
    | Except.error e => Except.error e
    | Except.ok kzfn =>
      if kzfn.1 = 0 then Except.error PyErr.zeroDivision
      else Except.ok ((kzfn.2 : ℚ) / (kzfn.1 : ℚ))

/-- log_likelihood from stats.py.  After reading model.n, the body evaluates
the name ssr on the line sigma = float(ssr / N); ssr is bound nowhere in the
function or the module, so every call stops with NameError and no value is
ever returned. -/
def log_likelihood (model : Model) : Except PyErr ℚ :=
  let _N := model.n
  Except.error (PyErr.nameError ("ssr"))

/-- log_likelihood_ratio from stats.py.  The first four lines compute the
residual sums of squares and the sigma values of the two models; the next
line evaluates the unbound name s1 (s2, df1 and df2 are also unbound further
down), so every call stops with NameError and no value is ever returned. -/
def log_likelihood_ratio (model1 model2 : Model) : Except PyErr ℚ :=
  let ssr1 := ss_residuals model1.phenotypes model1.predictions
  let ssr2 := ss_residuals model2.phenotypes model2.predictions
  let _sigma1 := ssr1 / (model1.n : ℚ)
  let _sigma2 := ssr2 / (model2.n : ℚ)
  Except.error (PyErr.nameError ("s1"))

/-- F_test from stats.py.  The guard raises when model1 has at least as many
parameters as model2; otherwise the function computes the two degrees of
freedom, the two residual sums of squares, the F statistic and the p-value
1 - fcdf F df1 df2, where fcdf is the F-distribution cdf of scipy taken as a
parameter.  The divisions are numpy float divisions that never raise, so
they are modelled with total field division. -/
def F_test (fcdf : ℚ → ℤ → ℤ → ℚ) (model1 model2 : Model) :
    Except PyErr (ℚ × ℚ) :=
  if model2.interactionValues.length ≤ model1.interactionValues.length then
    Except.error (PyErr.exception ("model1 must be nested in model2."))
  else
    let n_obs := model1.phenotypes.length
    let p1 := model1.interactionValues.length
    let p2 := model2.interactionValues.length
    let df1 : ℤ := (p2 : ℤ) - (p1 : ℤ)
    let df2 : ℤ := (n_obs : ℤ) - (p2 : ℤ) - 1
    let sse1 := ss_residuals model1.phenotypes model1.predictions
    let sse2 := ss_residuals model2.phenotypes model2.predictions
    let F := ((sse1 - sse2) / (df1 : ℚ)) / (sse2 / (df2 : ℚ))
    let p_value := 1 - fcdf F df1 df2
    Except.ok (F, p_value)


/-- Reading a mapped scaling at an in-range index gives the scaled entry. -/
theorem getD_map_mul (s : ℚ) : ∀ (l : List ℚ) (i : ℕ), i < l.length →
    (l.map (fun v => s * v)).getD i 0 = s * l.getD i 0
  | _ :: _, 0, _ => rfl
  | _ :: tl, i + 1, h => getD_map_mul s tl i (Nat.lt_of_succ_lt_succ h)
  | [], i, h => absurd h (Nat.not_lt_zero i)

/-- An in-range default read is a member of the list. -/
theorem getD_mem_of_lt : ∀ (l : List ℚ) (i : ℕ), i < l.length → l.getD i 0 ∈ l
  | a :: tl, 0, _ => List.mem_cons_self a tl
  | a :: tl, i + 1, h =>
      List.mem_cons_of_mem a (getD_mem_of_lt tl i (Nat.lt_of_succ_lt_succ h))
  | [], i, h => absurd h (Nat.not_lt_zero i)

/-- Mapping a function over in-range default reads of a list along its index
range is the same as mapping it over the list. -/
theorem map_range_getD (f : ℚ → ℚ) : ∀ l : List ℚ,
    (List.range l.length).map (fun i => f (l.getD i 0)) = l.map f
  | [] => rfl
  | a :: tl => by
    rw [List.length_cons, List.range_succ_eq_map, List.map_cons, List.map_map,
      List.map_cons]
    have h : ((fun i => f ((a :: tl).getD i 0)) ∘ Nat.succ) =
        fun i => f (tl.getD i 0) := by
      funext i
      simp [Function.comp, List.getD_cons_succ]
    rw [h, map_range_getD f tl, List.getD_cons_zero]

/-- The false_positive_rate loop, when lower_bounds is long enough at every
index holding a zero observation, returns the two counts: how many
observations in the index list are zero, and how many of those fall outside
the shifted bounds. -/
theorem fprGo_eq (yo yp ub lb : List ℚ) : ∀ (is : List ℕ) (acc : ℕ × ℕ),
    (∀ i ∈ is, yo.getD i 0 = 0 → i < lb.length) →
    fprGo yo yp ub lb is acc =
      Except.ok
        (acc.1 + (is.filter (fun i => decide (yo.getD i 0 = 0))).length,
         acc.2 + (is.filter (fun i =>
           decide (yo.getD i 0 = 0) &&
           decide (yo.getD i 0 > yp.getD i 0 + ub.getD i 0 ∨
                   yo.getD i 0 < yp.getD i 0 - lb.getD i 0))).length) := by
  intro is
  induction is with
  | nil => intro acc _; simp [fprGo]
  | cons i rest ih =>
    intro acc h
    by_cases hz : yo.getD i 0 = 0
    · have hb : i < lb.length := h i (List.mem_cons_self i rest) hz
      rw [fprGo, if_pos hz, if_pos hb,
        ih _ (fun j hj hzj => h j (List.mem_cons_of_mem i hj) hzj)]
      by_cases hc : yo.getD i 0 > yp.getD i 0 + ub.getD i 0 ∨
          yo.getD i 0 < yp.getD i 0 - lb.getD i 0
      · have hpz : decide (yo.getD i 0 = 0) = true := decide_eq_true hz
        have hpc : (decide (yo.getD i 0 = 0) &&
            decide (yo.getD i 0 > yp.getD i 0 + ub.getD i 0 ∨
                    yo.getD i 0 < yp.getD i 0 - lb.getD i 0)) = true := by
          rw [decide_eq_true hz, decide_eq_true hc]
          rfl
        rw [if_pos hc,
          List.filter_cons_of_pos (p := fun j => decide (yo.getD j 0 = 0)) hpz,
          List.filter_cons_of_pos (p := fun j =>
            decide (yo.getD j 0 = 0) &&
            decide (yo.getD j 0 > yp.getD j 0 + ub.getD j 0 ∨
                    yo.getD j 0 < yp.getD j 0 - lb.getD j 0)) hpc,
          List.length_cons, List.length_cons]
        simp only [Except.ok.injEq, Prod.mk.injEq]
        omega
      · have hpz : decide (yo.getD i 0 = 0) = true := decide_eq_true hz
        have hnc : ¬((decide (yo.getD i 0 = 0) &&
            decide (yo.getD i 0 > yp.getD i 0 + ub.getD i 0 ∨
                    yo.getD i 0 < yp.getD i 0 - lb.getD i 0)) = true) := by
          rw [decide_eq_false hc, Bool.and_false]
          exact Bool.false_ne_true
        rw [if_neg hc,
          List.filter_cons_of_pos (p := fun j => decide (yo.getD j 0 = 0)) hpz,
          List.filter_cons_of_neg (p := fun j =>
            decide (yo.getD j 0 = 0) &&
            decide (yo.getD j 0 > yp.getD j 0 + ub.getD j 0 ∨
                    yo.getD j 0 < yp.getD j 0 - lb.getD j 0)) hnc,
          List.length_cons]
        simp only [Except.ok.injEq, Prod.mk.injEq]
        exact ⟨by omega, trivial⟩
    · have hnz : ¬(decide (yo.getD i 0 = 0) = true) := by
        rw [decide_eq_false hz]
        exact Bool.false_ne_true
      have hnc : ¬((decide (yo.getD i 0 = 0) &&
          decide (yo.getD i 0 > yp.getD i 0 + ub.getD i 0 ∨
                  yo.getD i 0 < yp.getD i 0 - lb.getD i 0)) = true) := by
        rw [decide_eq_false hz, Bool.false_and]
        exact Bool.false_ne_true
      rw [fprGo, if_neg hz,
        ih _ (fun j hj hzj => h j (List.mem_cons_of_mem i hj) hzj),
        List.filter_cons_of_neg (p := fun j => decide (yo.getD j 0 = 0)) hnz,
        List.filter_cons_of_neg (p := fun j =>
          decide (yo.getD j 0 = 0) &&
          decide (yo.getD j 0 > yp.getD j 0 + ub.getD j 0 ∨
                  yo.getD j 0 < yp.getD j 0 - lb.getD j 0)) hnc]

/-- The false_negative_rate loop, when lower_bounds is long enough at every
index holding a nonzero observation, returns the two counts: how many
observations in the index list are nonzero, and how many of those have
shifted bounds strictly enclosing zero. -/
theorem fnrGo_eq (yo yp ub lb : List ℚ) : ∀ (is : List ℕ) (acc : ℕ × ℕ),
    (∀ i ∈ is, yo.getD i 0 ≠ 0 → i < lb.length) →
    fnrGo yo yp ub lb is acc =
      Except.ok
        (acc.1 + (is.filter (fun i => decide (yo.getD i 0 ≠ 0))).length,
         acc.2 + (is.filter (fun i =>
           decide (yo.getD i 0 ≠ 0) &&
           decide (yp.getD i 0 - lb.getD i 0 < 0 ∧
                   0 < yp.getD i 0 + ub.getD i 0))).length) := by
  intro is
  induction is with
  | nil => intro acc _; simp [fnrGo]
  | cons i rest ih =>
    intro acc h
    by_cases hz : yo.getD i 0 ≠ 0
    · have hb : i < lb.length := h i (List.mem_cons_self i rest) hz
      rw [fnrGo, if_pos hz, if_pos hb,
        ih _ (fun j hj hzj => h j (List.mem_cons_of_mem i hj) hzj)]
      by_cases hc : yp.getD i 0 - lb.getD i 0 < 0 ∧ 0 < yp.getD i 0 + ub.getD i 0
      · have hpz : decide (yo.getD i 0 ≠ 0) = true := decide_eq_true hz
        have hpc : (decide (yo.getD i 0 ≠ 0) &&
            decide (yp.getD i 0 - lb.getD i 0 < 0 ∧
                    0 < yp.getD i 0 + ub.getD i 0)) = true := by
          rw [decide_eq_true hz, decide_eq_true hc]
          rfl
        rw [if_pos hc,
          List.filter_cons_of_pos (p := fun j => decide (yo.getD j 0 ≠ 0)) hpz,
          List.filter_cons_of_pos (p := fun j =>
            decide (yo.getD j 0 ≠ 0) &&
            decide (yp.getD j 0 - lb.getD j 0 < 0 ∧
                    0 < yp.getD j 0 + ub.getD j 0)) hpc,
          List.length_cons, List.length_cons]
        simp only [Except.ok.injEq, Prod.mk.injEq]
        omega
      · have hpz : decide (yo.getD i 0 ≠ 0) = true := decide_eq_true hz
        have hnc : ¬((decide (yo.getD i 0 ≠ 0) &&
            decide (yp.getD i 0 - lb.getD i 0 < 0 ∧
                    0 < yp.getD i 0 + ub.getD i 0)) = true) := by
          rw [decide_eq_false hc, Bool.and_false]
          exact Bool.false_ne_true
        rw [if_neg hc,
          List.filter_cons_of_pos (p := fun j => decide (yo.getD j 0 ≠ 0)) hpz,
          List.filter_cons_of_neg (p := fun j =>
            decide (yo.getD j 0 ≠ 0) &&
            decide (yp.getD j 0 - lb.getD j 0 < 0 ∧
                    0 < yp.getD j 0 + ub.getD j 0)) hnc,
          List.length_cons]
        simp only [Except.ok.injEq, Prod.mk.injEq]
        exact ⟨by omega, trivial⟩
    · have hnz : ¬(decide (yo.getD i 0 ≠ 0) = true) := by
        rw [decide_eq_false hz]
        exact Bool.false_ne_true
      have hnc : ¬((decide (yo.getD i 0 ≠ 0) &&
          decide (yp.getD i 0 - lb.getD i 0 < 0 ∧
                  0 < yp.getD i 0 + ub.getD i 0)) = true) := by
        rw [decide_eq_false hz, Bool.false_and]
        exact Bool.false_ne_true
      rw [fnrGo, if_neg hz,
        ih _ (fun j hj hzj => h j (List.mem_cons_of_mem i hj) hzj),
        List.filter_cons_of_neg (p := fun j => decide (yo.getD j 0 ≠ 0)) hnz,
        List.filter_cons_of_neg (p := fun j =>
          decide (yo.getD j 0 ≠ 0) &&
          decide (yp.getD j 0 - lb.getD j 0 < 0 ∧
                  0 < yp.getD j 0 + ub.getD j 0)) hnc]

/-- The false_positive_rate loop never raises the explicit size-mismatch
exception: its only failure is IndexError. -/
theorem fprGo_ne_exception (yo yp ub lb : List ℚ) : ∀ (is : List ℕ)
    (acc : ℕ × ℕ) (msg : String),
    fprGo yo yp ub lb is acc ≠ Except.error (PyErr.exception msg) := by
  intro is
  induction is with
  | nil => intro acc msg hcon; simp [fprGo] at hcon
  | cons i rest ih =>
    intro acc msg
    rw [fprGo]
    by_cases hz : yo.getD i 0 = 0
    · rw [if_pos hz]
      by_cases hb : i < lb.length
      · rw [if_pos hb]; exact ih _ _
      · rw [if_neg hb]
        intro hcon
        exact PyErr.noConfusion (Except.error.inj hcon)
    · rw [if_neg hz]; exact ih _ _

/-- The false_negative_rate loop never raises the explicit size-mismatch
exception: its only failure is IndexError. -/
theorem fnrGo_ne_exception (yo yp ub lb : List ℚ) : ∀ (is : List ℕ)
    (acc : ℕ × ℕ) (msg : String),
    fnrGo yo yp ub lb is acc ≠ Except.error (PyErr.exception msg) := by
  intro is
  induction is with
  | nil => intro acc msg hcon; simp [fnrGo] at hcon
  | cons i rest ih =>
    intro acc msg
    rw [fnrGo]
    by_cases hz : yo.getD i 0 ≠ 0
    · rw [if_pos hz]
      by_cases hb : i < lb.length
      · rw [if_pos hb]; exact ih _ _
      · rw [if_neg hb]
        intro hcon
        exact PyErr.noConfusion (Except.error.inj hcon)
    · rw [if_neg hz]; exact ih _ _


/-- C3: on equal-length inputs with at least one exactly-zero observation,
false_positive_rate returns c divided by z, where z counts the indices whose
observation is exactly zero and c counts those of them whose sigmas-scaled
interval from y_pred minus sigmas times lower_ci to y_pred plus sigmas times
upper_ci excludes zero; in particular the spec example with observations
0, 0, 1, 2, predictions 0.1, 5, 1, 2, unit bounds and sigmas 2 returns
one half. -/
theorem false_positive_rate_formula (y_obs y_pred upper_ci lower_ci : List ℚ)
    (sigmas : ℚ)
    (hp : y_pred.length = y_obs.length) (hu : upper_ci.length = y_obs.length)
    (hl : lower_ci.length = y_obs.length)
    (hzero : ∃ i < y_obs.length, y_obs.getD i 0 = 0) :
    false_positive_rate y_obs y_pred upper_ci lower_ci sigmas =
      Except.ok
        ((((List.range y_obs.length).filter (fun i =>
            decide (y_obs.getD i 0 = 0) &&
            decide (¬(y_pred.getD i 0 - sigmas * lower_ci.getD i 0 ≤ 0 ∧
                      0 ≤ y_pred.getD i 0 + sigmas * upper_ci.getD i 0)))).length : ℚ) /
          (((List.range y_obs.length).filter (fun i =>
            decide (y_obs.getD i 0 = 0))).length : ℚ)) ∧
    false_positive_rate [0, 0, 1, 2] [1/10, 5, 1, 2] [1, 1, 1, 1] [1, 1, 1, 1] 2 =
      Except.ok (1/2) := by
  refine ⟨?_, by norm_num [false_positive_rate, fprGo, List.range_succ]⟩
  unfold false_positive_rate
  rw [if_neg (by simp [hp, hu]),
    fprGo_eq y_obs y_pred (upper_ci.map (fun v => sigmas * v))
      (lower_ci.map (fun v => sigmas * v)) (List.range y_obs.length) (0, 0)
      (fun i hi _ => by rw [List.length_map, hl]; exact List.mem_range.mp hi)]
  have hfilters :
      (List.range y_obs.length).filter (fun i =>
        decide (y_obs.getD i 0 = 0) &&
        decide (y_obs.getD i 0 >
            y_pred.getD i 0 + (upper_ci.map (fun v => sigmas * v)).getD i 0 ∨
          y_obs.getD i 0 <
            y_pred.getD i 0 - (lower_ci.map (fun v => sigmas * v)).getD i 0)) =
      (List.range y_obs.length).filter (fun i =>
        decide (y_obs.getD i 0 = 0) &&
        decide (¬(y_pred.getD i 0 - sigmas * lower_ci.getD i 0 ≤ 0 ∧
                  0 ≤ y_pred.getD i 0 + sigmas * upper_ci.getD i 0))) := by
    refine List.filter_congr ?_
    intro i hi
    have hiN : i < y_obs.length := List.mem_range.mp hi
    rw [getD_map_mul sigmas upper_ci i (by rw [hu]; exact hiN),
      getD_map_mul sigmas lower_ci i (by rw [hl]; exact hiN)]
    by_cases hz : y_obs.getD i 0 = 0
    · rw [hz]
      have hiff : decide ((0 : ℚ) > y_pred.getD i 0 + sigmas * upper_ci.getD i 0 ∨
          (0 : ℚ) < y_pred.getD i 0 - sigmas * lower_ci.getD i 0) =
          decide (¬(y_pred.getD i 0 - sigmas * lower_ci.getD i 0 ≤ 0 ∧
                    0 ≤ y_pred.getD i 0 + sigmas * upper_ci.getD i 0)) :=
        decide_eq_decide.mpr
          (by rw [not_and_or, not_le, not_le, gt_iff_lt]; exact or_comm)
      rw [hiff]
    · rw [decide_eq_false hz, Bool.false_and, Bool.false_and]
  rw [hfilters]
  obtain ⟨i, hiN, hz⟩ := hzero
  have hmem : i ∈ (List.range y_obs.length).filter
      (fun i => decide (y_obs.getD i 0 = 0)) :=
    List.mem_filter.mpr ⟨List.mem_range.mpr hiN, decide_eq_true hz⟩
  have hpos : 0 < ((List.range y_obs.length).filter
      (fun i => decide (y_obs.getD i 0 = 0))).length :=
    List.length_pos.mpr (List.ne_nil_of_mem hmem)
  dsimp only
  rw [if_neg (by omega)]
  rw [Nat.zero_add, Nat.zero_add]


theorem false_positive_rate_formula_w :
    (∃ i < ([0, 3] : List ℚ).length, ([0, 3] : List ℚ).getD i 0 = 0) ∧
    false_positive_rate [0, 3] [5, 3] [1, 1] [1, 1] 2 = Except.ok 1 := by
  have h := false_positive_rate_formula [0, 3] [5, 3] [1, 1] [1, 1] 2
    rfl rfl rfl ⟨0, by norm_num, rfl⟩
  refine ⟨⟨0, by norm_num, rfl⟩, ?_⟩
  rw [h.1]
  norm_num [List.range_succ]

/-- C4, amended: false_positive_rate and false_negative_rate raise the
explicit size-mismatch exception exactly when y_pred or upper_ci differs in
length from y_obs; the length of lower_ci is not part of the explicit
check. -/
theorem rates_size_check (y_obs y_pred upper_ci lower_ci : List ℚ)
    (sigmas : ℚ) :
    (false_positive_rate y_obs y_pred upper_ci lower_ci sigmas =
        Except.error (PyErr.exception ("Input arrays must all be the same size")) ↔
      (y_obs.length ≠ y_pred.length ∨ y_obs.length ≠ upper_ci.length)) ∧
    (false_negative_rate y_obs y_pred upper_ci lower_ci sigmas =
        Except.error (PyErr.exception ("Input arrays must all be the same size")) ↔
      (y_obs.length ≠ y_pred.length ∨ y_obs.length ≠ upper_ci.length)) := by
  constructor
  · by_cases h : y_obs.length ≠ y_pred.length ∨ y_obs.length ≠ upper_ci.length
    · refine ⟨fun _ => h, fun _ => ?_⟩
      unfold false_positive_rate
      rw [if_pos h]
    · refine ⟨fun hcon => ?_, fun hcon => absurd hcon h⟩
      exfalso
      unfold false_positive_rate at hcon
      rw [if_neg h] at hcon
      rcases hgo : fprGo y_obs y_pred (upper_ci.map (fun v => sigmas * v))
          (lower_ci.map (fun v => sigmas * v)) (List.range y_obs.length) (0, 0)
        with e | kzfp
      · rw [hgo] at hcon
        dsimp only at hcon
        exact fprGo_ne_exception _ _ _ _ _ _ _
          (hgo.trans (congrArg Except.error (Except.error.inj hcon)))
      · rw [hgo] at hcon
        dsimp only at hcon
        by_cases hk : kzfp.1 = 0
        · rw [if_pos hk] at hcon
          exact PyErr.noConfusion (Except.error.inj hcon)
        · rw [if_neg hk] at hcon
          exact Except.noConfusion hcon
  · by_cases h : y_obs.length ≠ y_pred.length ∨ y_obs.length ≠ upper_ci.length
    · refine ⟨fun _ => h, fun _ => ?_⟩
      unfold false_negative_rate
      rw [if_pos h]
    · refine ⟨fun hcon => ?_, fun hcon => absurd hcon h⟩
      exfalso
      unfold false_negative_rate at hcon
      rw [if_neg h] at hcon
      rcases hgo : fnrGo y_obs y_pred (upper_ci.map (fun v => sigmas * v))
          (lower_ci.map (fun v => sigmas * v)) (List.range y_obs.length) (0, 0)
        with e | kzfn
      · rw [hgo] at hcon
        dsimp only at hcon
        exact fnrGo_ne_exception _ _ _ _ _ _ _
          (hgo.trans (congrArg Except.error (Except.error.inj hcon)))
      · rw [hgo] at hcon
        dsimp only at hcon
        by_cases hk : kzfn.1 = 0
        · rw [if_pos hk] at hcon
          exact PyErr.noConfusion (Except.error.inj hcon)
        · rw [if_neg hk] at hcon
          exact Except.noConfusion hcon

theorem rates_size_check_w :
    false_positive_rate [1, 2, 3, 4, 5] [1, 2, 3, 4] [1, 1, 1, 1, 1] [1, 1, 1, 1, 1] 2 =
      Except.error (PyErr.exception ("Input arrays must all be the same size")) ∧
    false_negative_rate [1, 2, 3, 4, 5] [1, 2, 3, 4] [1, 1, 1, 1, 1] [1, 1, 1, 1, 1] 2 =
      Except.error (PyErr.exception ("Input arrays must all be the same size")) :=
  ⟨(rates_size_check [1, 2, 3, 4, 5] [1, 2, 3, 4] [1, 1, 1, 1, 1] [1, 1, 1, 1, 1] 2).1.mpr
      (Or.inl (by norm_num)),
   (rates_size_check [1, 2, 3, 4, 5] [1, 2, 3, 4] [1, 1, 1, 1, 1] [1, 1, 1, 1, 1] 2).2.mpr
      (Or.inl (by norm_num))⟩

/-- C4, counterexample: a lower_ci one entry shorter than the other three
vectors does not make false_positive_rate raise; the call returns the value
zero, refuting the claim that any of the four vectors differing in length
produces an explicit raised error. -/
theorem lower_ci_length_unchecked :
    ([1] : List ℚ).length ≠ ([(0 : ℚ), 1] : List ℚ).length ∧
    false_positive_rate [0, 1] [0, 5] [1, 1] [1] 2 = Except.ok 0 := by
  constructor
  · norm_num
  · norm_num [false_positive_rate, fprGo, List.range_succ]

/-- C5: on equal-length inputs, false_positive_rate stops with a
ZeroDivisionError when no observation is exactly zero, and
false_negative_rate stops with a ZeroDivisionError when every observation is
exactly zero. -/
theorem rates_zero_division (ya pa ua la yb pb vb wb : List ℚ) (s t : ℚ)
    (hpa : pa.length = ya.length) (hua : ua.length = ya.length)
    (hla : la.length = ya.length)
    (hpb : pb.length = yb.length) (hvb : vb.length = yb.length)
    (hwb : wb.length = yb.length)
    (hnz : ∀ a ∈ ya, a ≠ 0) (hz : ∀ a ∈ yb, a = 0) :
    false_positive_rate ya pa ua la s = Except.error PyErr.zeroDivision ∧
    false_negative_rate yb pb vb wb t = Except.error PyErr.zeroDivision := by
  constructor
  · unfold false_positive_rate
    rw [if_neg (by simp [hpa, hua]),
      fprGo_eq ya pa (ua.map (fun v => s * v)) (la.map (fun v => s * v))
        (List.range ya.length) (0, 0)
        (fun i hi hzi =>
          absurd hzi (hnz _ (getD_mem_of_lt ya i (List.mem_range.mp hi))))]
    have hempty : (List.range ya.length).filter
        (fun i => decide (ya.getD i 0 = 0)) = [] := by
      rw [List.filter_eq_nil_iff]
      intro i hi
      rw [decide_eq_false (hnz _ (getD_mem_of_lt ya i (List.mem_range.mp hi)))]
      exact Bool.false_ne_true
    rw [hempty]
    dsimp only
    rw [if_pos (by norm_num)]
  · unfold false_negative_rate
    rw [if_neg (by simp [hpb, hvb]),
      fnrGo_eq yb pb (vb.map (fun v => t * v)) (wb.map (fun v => t * v))
        (List.range yb.length) (0, 0)
        (fun i hi hzi =>
          absurd (hz _ (getD_mem_of_lt yb i (List.mem_range.mp hi))) hzi)]
    have hempty : (List.range yb.length).filter
        (fun i => decide (yb.getD i 0 ≠ 0)) = [] := by
      rw [List.filter_eq_nil_iff]
      intro i hi
      rw [decide_eq_false
        (not_not_intro (hz _ (getD_mem_of_lt yb i (List.mem_range.mp hi))))]
      exact Bool.false_ne_true
    rw [hempty]
    dsimp only
    rw [if_pos (by norm_num)]

theorem rates_zero_division_w :
    false_positive_rate [1, 2] [1, 2] [1, 1] [1, 1] 2 =
      Except.error PyErr.zeroDivision ∧
    false_negative_rate [0, 0] [1, 2] [1, 1] [1, 1] 2 =
      Except.error PyErr.zeroDivision :=
  rates_zero_division [1, 2] [1, 2] [1, 1] [1, 1] [0, 0] [1, 2] [1, 1] [1, 1] 2 2
    rfl rfl rfl rfl rfl rfl (by norm_num) (by norm_num)


/-- C10: on equal-length inputs with at least one nonzero observation,
false_negative_rate returns the ratio of the number of nonzero-observation
indices whose sigmas-scaled interval strictly contains zero to the number of
nonzero-observation indices, and an index at which either scaled endpoint is
exactly zero is never counted. -/
theorem false_negative_rate_strict_containment
    (y_obs y_pred upper_ci lower_ci : List ℚ) (sigmas : ℚ)
    (hp : y_pred.length = y_obs.length) (hu : upper_ci.length = y_obs.length)
    (hl : lower_ci.length = y_obs.length)
    (hnz : ∃ i < y_obs.length, y_obs.getD i 0 ≠ 0) :
    false_negative_rate y_obs y_pred upper_ci lower_ci sigmas =
      Except.ok
        ((((List.range y_obs.length).filter (fun i =>
            decide (y_obs.getD i 0 ≠ 0) &&
            decide (y_pred.getD i 0 - sigmas * lower_ci.getD i 0 < 0 ∧
                    0 < y_pred.getD i 0 + sigmas * upper_ci.getD i 0))).length : ℚ) /
          (((List.range y_obs.length).filter (fun i =>
            decide (y_obs.getD i 0 ≠ 0))).length : ℚ)) ∧
    ∀ i, (y_pred.getD i 0 - sigmas * lower_ci.getD i 0 = 0 ∨
          y_pred.getD i 0 + sigmas * upper_ci.getD i 0 = 0) →
      (decide (y_obs.getD i 0 ≠ 0) &&
       decide (y_pred.getD i 0 - sigmas * lower_ci.getD i 0 < 0 ∧
               0 < y_pred.getD i 0 + sigmas * upper_ci.getD i 0)) = false := by
  constructor
  · unfold false_negative_rate
    rw [if_neg (by simp [hp, hu]),
      fnrGo_eq y_obs y_pred (upper_ci.map (fun v => sigmas * v))
        (lower_ci.map (fun v => sigmas * v)) (List.range y_obs.length) (0, 0)
        (fun i hi _ => by rw [List.length_map, hl]; exact List.mem_range.mp hi)]
    have hfilters :
        (List.range y_obs.length).filter (fun i =>
          decide (y_obs.getD i 0 ≠ 0) &&
          decide (y_pred.getD i 0 -
              (lower_ci.map (fun v => sigmas * v)).getD i 0 < 0 ∧
            0 < y_pred.getD i 0 +
              (upper_ci.map (fun v => sigmas * v)).getD i 0)) =
        (List.range y_obs.length).filter (fun i =>
          decide (y_obs.getD i 0 ≠ 0) &&
          decide (y_pred.getD i 0 - sigmas * lower_ci.getD i 0 < 0 ∧
                  0 < y_pred.getD i 0 + sigmas * upper_ci.getD i 0)) := by
      refine List.filter_congr ?_
      intro i hi
      have hiN : i < y_obs.length := List.mem_range.mp hi
      rw [getD_map_mul sigmas upper_ci i (by rw [hu]; exact hiN),
        getD_map_mul sigmas lower_ci i (by rw [hl]; exact hiN)]
    rw [hfilters]
    obtain ⟨i, hiN, hz⟩ := hnz
    have hmem : i ∈ (List.range y_obs.length).filter
        (fun i => decide (y_obs.getD i 0 ≠ 0)) :=
      List.mem_filter.mpr ⟨List.mem_range.mpr hiN, decide_eq_true hz⟩
    have hpos : 0 < ((List.range y_obs.length).filter
        (fun i => decide (y_obs.getD i 0 ≠ 0))).length :=
      List.length_pos.mpr (List.ne_nil_of_mem hmem)
    dsimp only
    rw [if_neg (by omega)]
    rw [Nat.zero_add, Nat.zero_add]
  · intro i hti
    have hb : decide (y_pred.getD i 0 - sigmas * lower_ci.getD i 0 < 0 ∧
        0 < y_pred.getD i 0 + sigmas * upper_ci.getD i 0) = false := by
      refine decide_eq_false ?_
      rintro ⟨h1, h2⟩
      rcases hti with h | h
      · rw [h] at h1
        exact absurd h1 (lt_irrefl 0)
      · rw [h] at h2
        exact absurd h2 (lt_irrefl 0)
    rw [hb, Bool.and_false]

theorem false_negative_rate_strict_containment_w :
    (∃ i < ([1, 2] : List ℚ).length, ([1, 2] : List ℚ).getD i 0 ≠ 0) ∧
    ((2 : ℚ) - 2 * 1 = 0 ∨ (2 : ℚ) + 2 * 1 = 0) ∧
    false_negative_rate [1, 2] [2, 1] [1, 1] [1, 1] 2 = Except.ok (1/2) := by
  have h := false_negative_rate_strict_containment [1, 2] [2, 1] [1, 1] [1, 1] 2
    rfl rfl rfl ⟨0, by norm_num, by norm_num⟩
  refine ⟨⟨0, by norm_num, by norm_num⟩, Or.inl (by norm_num), ?_⟩
  rw [h.1]
  norm_num [List.range_succ]

/-- C6: for a vector with nonzero variance, and a square-root function that
squares back to its argument on the sum of squared deviations, pearson of
the vector with itself is exactly one; on equal-length arguments, the scope
the spec requires for pearson, a zero variance in either argument makes the
denominator zero and the call fails with a division by zero. -/
theorem pearson_self_correlation (sqrt : ℚ → ℚ) (y ya yb : List ℚ)
    (hvar : ssDev y ≠ 0)
    (hs : sqrt (ssDev y) * sqrt (ssDev y) = ssDev y)
    (h0 : sqrt 0 = 0)
    (hlen : ya.length = yb.length)
    (hdeg : ssDev ya = 0 ∨ ssDev yb = 0) :
    pearson sqrt y y = Except.ok 1 ∧
    pearson sqrt ya yb = Except.error PyErr.zeroDivision := by
  constructor
  · unfold pearson
    rw [if_neg (lt_irrefl y.length)]
    have hnum : ((List.range y.length).map
        (fun i => (y.getD i 0 - mean y) * (y.getD i 0 - mean y))).sum = ssDev y := by
      rw [map_range_getD (fun v => (v - mean y) * (v - mean y)) y]
      unfold ssDev
      have hfg : (fun v : ℚ => (v - mean y) * (v - mean y)) =
          fun v : ℚ => (v - mean y) ^ 2 := by
        funext v
        ring
      rw [hfg]
    rw [hs, if_neg hvar, hnum, div_self hvar]
  · unfold pearson
    rw [if_neg (by omega)]
    rcases hdeg with h | h
    · rw [if_pos (by rw [h, h0, zero_mul])]
    · rw [if_pos (by rw [h, h0, mul_zero])]

theorem pearson_self_correlation_w :
    ssDev [3, 3, -3, -3] ≠ 0 ∧
    ssDev ([1, 1] : List ℚ) = 0 ∧
    ([1, 1] : List ℚ).length = ([0, 2] : List ℚ).length ∧
    pearson (fun a => if a = 36 then 6 else 0) [3, 3, -3, -3] [3, 3, -3, -3] =
      Except.ok 1 ∧
    pearson (fun a => if a = 36 then 6 else 0) [1, 1] [0, 2] =
      Except.error PyErr.zeroDivision := by
  have h := pearson_self_correlation (fun a => if a = 36 then 6 else 0)
    [3, 3, -3, -3] [1, 1] [0, 2]
    (by norm_num [ssDev, mean]) (by norm_num [ssDev, mean]) (by norm_num)
    rfl (Or.inl (by norm_num [ssDev, mean]))
  exact ⟨by norm_num [ssDev, mean], by norm_num [ssDev, mean], rfl, h.1, h.2⟩

/-- C7: ss_residuals of a vector with itself is exactly zero, and for a
vector with nonzero total sum of squared deviations, generalized_r2 of the
vector with itself is exactly one, while constant observations make
generalized_r2 fail with a division by zero. -/
theorem r2_self_and_residuals (w y yc yq : List ℚ)
    (hvar : ssDev y ≠ 0) (hconst : ∃ c, ∀ a ∈ yc, a = c) :
    ss_residuals w w = 0 ∧ generalized_r2 y y = Except.ok 1 ∧
    generalized_r2 yc yq = Except.error PyErr.zeroDivision := by
  have hself : ∀ l : List ℚ, ss_residuals l l = 0 := by
    intro l
    induction l with
    | nil => rfl
    | cons a tl ih =>
      unfold ss_residuals at ih ⊢
      rw [List.zipWith_cons_cons, List.sum_cons, ih]
      ring
  refine ⟨hself w, ?_, ?_⟩
  · unfold generalized_r2
    rw [if_neg hvar, hself y, zero_div, sub_zero]
  · have h0 : ssDev yc = 0 := by
      obtain ⟨c, hc⟩ := hconst
      cases yc with
      | nil => rfl
      | cons a tl =>
        have hlen : ((a :: tl).length : ℚ) ≠ 0 := by
          rw [List.length_cons]
          positivity
        have hmean : mean (a :: tl) = c := by
          unfold mean
          rw [List.sum_eq_card_nsmul (a :: tl) c hc, nsmul_eq_mul, mul_comm,
            mul_div_assoc, div_self hlen, mul_one]
        unfold ssDev
        refine List.sum_eq_zero ?_
        intro x hx
        obtain ⟨v, hv, rfl⟩ := List.mem_map.mp hx
        rw [hmean, hc v hv]
        ring
    unfold generalized_r2
    rw [if_pos h0]

theorem r2_self_and_residuals_w :
    ssDev ([0, 1] : List ℚ) ≠ 0 ∧
    (∃ c, ∀ a ∈ ([5, 5] : List ℚ), a = c) ∧
    ss_residuals [0, 1] [0, 1] = 0 ∧
    generalized_r2 [0, 1] [0, 1] = Except.ok 1 ∧
    generalized_r2 [5, 5] [1, 2] = Except.error PyErr.zeroDivision := by
  have h := r2_self_and_residuals [0, 1] [0, 1] [5, 5] [1, 2]
    (by norm_num [ssDev, mean]) ⟨5, by norm_num⟩
  exact ⟨by norm_num [ssDev, mean], ⟨5, by norm_num⟩, h.1, h.2.1, h.2.2⟩

/-- C8: every call of log_likelihood stops with a NameError on the unbound
name ssr, and every call of log_likelihood_ratio stops with a NameError on
the unbound name s1; neither function ever returns a value. -/
theorem log_likelihood_name_errors (m m1 m2 : Model) :
    log_likelihood m = Except.error (PyErr.nameError ("ssr")) ∧
    log_likelihood_ratio m1 m2 = Except.error (PyErr.nameError ("s1")) :=
  ⟨rfl, rfl⟩

/-- C9, failing evaluation: log_likelihood_ratio applied to two concrete
models stops with a NameError on the unbound name s1 instead of returning
the ratio exp of half the AIC difference that the claim describes. -/
theorem log_likelihood_ratio_failing_eval :
    log_likelihood_ratio ⟨[1], [0], [1], 1⟩ ⟨[1], [0], [1], 1⟩ =
      Except.error (PyErr.nameError ("s1")) := rfl

/-- C1: when model1 has strictly fewer parameters than model2, F_test
returns the pair of the F statistic and the p-value, with df1 the parameter
difference, df2 the observation count of model1 minus the parameters of
model2 minus one, the residual sums of squares computed by ss_residuals on
each model, F the ratio of scaled differences, and the p-value one minus the
F-distribution cdf at F with df1 and df2 degrees of freedom. -/
theorem F_test_formula (fcdf : ℚ → ℤ → ℤ → ℚ) (m1 m2 : Model)
    (h : m1.interactionValues.length < m2.interactionValues.length) :
    F_test fcdf m1 m2 =
      Except.ok
        (((ss_residuals m1.phenotypes m1.predictions -
            ss_residuals m2.phenotypes m2.predictions) /
            (((m2.interactionValues.length : ℤ) -
              (m1.interactionValues.length : ℤ) : ℤ) : ℚ)) /
          (ss_residuals m2.phenotypes m2.predictions /
            (((m1.phenotypes.length : ℤ) -
              (m2.interactionValues.length : ℤ) - 1 : ℤ) : ℚ)),
         1 - fcdf
           (((ss_residuals m1.phenotypes m1.predictions -
              ss_residuals m2.phenotypes m2.predictions) /
              (((m2.interactionValues.length : ℤ) -
                (m1.interactionValues.length : ℤ) : ℤ) : ℚ)) /
            (ss_residuals m2.phenotypes m2.predictions /
              (((m1.phenotypes.length : ℤ) -
                (m2.interactionValues.length : ℤ) - 1 : ℤ) : ℚ)))
           ((m2.interactionValues.length : ℤ) - (m1.interactionValues.length : ℤ))
           ((m1.phenotypes.length : ℤ) - (m2.interactionValues.length : ℤ) - 1)) := by
  unfold F_test
  rw [if_neg (not_le.mpr h)]

theorem F_test_formula_w :
    (⟨[1, 2, 3, 4, 5], [1, 2, 3, 4, 5], [7], 5⟩ : Model).interactionValues.length <
      (⟨[1, 2, 3, 4, 4], [1, 2, 3, 4, 5], [7, 8], 5⟩ : Model).interactionValues.length ∧
    F_test (fun _ _ _ => 0)
      ⟨[1, 2, 3, 4, 5], [1, 2, 3, 4, 5], [7], 5⟩
      ⟨[1, 2, 3, 4, 4], [1, 2, 3, 4, 5], [7, 8], 5⟩ =
      Except.ok (-2, 1) :=
  ⟨by norm_num,
   (F_test_formula (fun _ _ _ => 0)
      ⟨[1, 2, 3, 4, 5], [1, 2, 3, 4, 5], [7], 5⟩
      ⟨[1, 2, 3, 4, 4], [1, 2, 3, 4, 5], [7, 8], 5⟩ (by norm_num)).trans
    (by norm_num [ss_residuals])⟩

/-- C2: F_test raises an error exactly when model1 has at least as many
parameters as model2, and in that case the result is the fixed nesting
exception, independent of every statistic of the two models. -/
theorem F_test_nesting_check (fcdf : ℚ → ℤ → ℤ → ℚ) (m1 m2 : Model) :
    ((∃ e, F_test fcdf m1 m2 = Except.error e) ↔
      m2.interactionValues.length ≤ m1.interactionValues.length) ∧
    (m2.interactionValues.length ≤ m1.interactionValues.length →
      F_test fcdf m1 m2 =
        Except.error (PyErr.exception ("model1 must be nested in model2."))) := by
  by_cases h : m2.interactionValues.length ≤ m1.interactionValues.length
  · refine ⟨⟨fun _ => h, fun _ => ?_⟩, fun _ => ?_⟩
    · refine ⟨PyErr.exception ("model1 must be nested in model2."), ?_⟩
      unfold F_test
      rw [if_pos h]
    · unfold F_test
      rw [if_pos h]
  · refine ⟨⟨fun hcon => ?_, fun hcon => absurd hcon h⟩, fun hcon => absurd hcon h⟩
    exfalso
    obtain ⟨e, he⟩ := hcon
    unfold F_test at he
    rw [if_neg h] at he
    exact Except.noConfusion he

theorem F_test_nesting_check_w :
    (∃ e, F_test (fun _ _ _ => 0) ⟨[1], [1], [7], 1⟩ ⟨[1], [1], [7], 1⟩ =
      Except.error e) ∧
    F_test (fun _ _ _ => 0) ⟨[1], [1], [7], 1⟩ ⟨[1], [1], [7], 1⟩ =
      Except.error (PyErr.exception ("model1 must be nested in model2.")) :=
  ⟨(F_test_nesting_check (fun _ _ _ => 0) ⟨[1], [1], [7], 1⟩
      ⟨[1], [1], [7], 1⟩).1.mpr (le_refl 1),
   (F_test_nesting_check (fun _ _ _ => 0) ⟨[1], [1], [7], 1⟩
      ⟨[1], [1], [7], 1⟩).2 (le_refl 1)⟩

end Stats
